import Mathlib

/-!
# Verification of the `CryptoWallet` wallet-file store and transaction workflow

A shallow embedding of `src/wallet.py` (class `CryptoWallet`).  The external
collaborators (the `web3` blockchain client, the `secrets` randomness source,
the `requests` HTTP library, the `json` codec and `datetime`) are modelled as
oracle parameters: the embedding records exactly which collaborator calls the
Python code makes and in which order, and threads the wallet state (the
in-memory `self.accounts` dict and the on-disk `wallets/` directory) explicitly.

File contents are abstracted by their parse outcome: a file's content is
`some r` when `json.load` of the file yields the wallet record `r` (as
`json.dump r` does), and `none` when parsing raises.  Record fields are the
strings (byte sequences) stored in the JSON object.
-/

set_option autoImplicit false

/-- The wallet record persisted by `create_wallet`:
`{'address': ..., 'private_key': ..., 'public_key': ...}`. -/
structure WalletRecord where
  address : String
  private_key : String
  public_key : String
deriving DecidableEq, Repr

/-- One file in the `wallets/` directory: a name and its content, the latter
abstracted by its parse outcome (`none` = `json.load` raises). -/
structure WalletFile where
  name : String
  content : Option WalletRecord
deriving DecidableEq, Repr

/-- The in-memory `self.accounts` dict, as an association list in insertion
order (Python dicts preserve insertion order; assignment updates in place). -/
def AccountMap : Type := List (String × WalletRecord)

instance : DecidableEq AccountMap := by
  unfold AccountMap
  infer_instance

/-- Dict assignment `self.accounts[k] = v`: update in place if the key is
present, else append. -/
def insertAccount : AccountMap → String → WalletRecord → AccountMap
  | [], k, v => [(k, v)]
  | (k', v') :: rest, k, v =>
    if k' = k then (k, v) :: rest else (k', v') :: insertAccount rest k v

/-- Dict lookup `self.accounts.get(k)` / `k in self.accounts`. -/
def getAccount : AccountMap → String → Option WalletRecord
  | [], _ => none
  | (k, v) :: rest, a => if k = a then some v else getAccount rest a

/-- The whole mutable state owned by the Wallet Store: the in-memory mapping
and the files of the `wallets/` directory, the latter in directory-listing
order. -/
structure WalletState where
  accounts : AccountMap
  files : List WalletFile
deriving DecidableEq

/-- `open(path, 'w')` followed by a write: replace the content of the file
with that name in place, or create the file. -/
def writeFile : List WalletFile → String → Option WalletRecord → List WalletFile
  | [], n, c => [⟨n, c⟩]
  | f :: rest, n, c =>
    if f.name = n then ⟨n, c⟩ :: rest else f :: writeFile rest n c

/-- Read a file by name: `none` when no such file exists, `some c` when the
file exists with content `c`. -/
def readFile (fs : List WalletFile) (name : String) : Option (Option WalletRecord) :=
  match fs with
  | [] => none
  | f :: rest => if f.name = name then some f.content else readFile rest name

/-- Python's `str.endswith`, on the character sequences: `suffix` is a suffix
of `s`. -/
def endswith (s suffix : String) : Bool := suffix.data.isSuffixOf s.data

/-- `CryptoWallet._load_existing_wallets`, lines 54-66: iterate over the
directory listing; for each file whose name ends in `.json`, try to parse it;
on success assign `self.accounts[wallet_data['address']] = wallet_data`, on a
parse failure print `f"Error loading wallet {filename}: ..."` and continue.
Returns the resulting mapping together with the warnings printed, in order. -/
def loadExistingWallets : List WalletFile → AccountMap → AccountMap × List String
  | [], acc => (acc, [])
  | f :: rest, acc =>
    if endswith f.name ".json" then
      match f.content with
      | some r => loadExistingWallets rest (insertAccount acc r.address r)
      | none =>
        let res := loadExistingWallets rest acc
        (res.1, ("Error loading wallet " ++ f.name) :: res.2)
    else loadExistingWallets rest acc

/-- Specification function (not from the source): the record of the last file
in directory-listing order whose name ends in `.json`, whose content parses,
and whose internal `address` field equals `a`. -/
def lastValidRecord : List WalletFile → String → Option WalletRecord
  | [], _ => none
  | f :: rest, a =>
    match lastValidRecord rest a with
    | some r => some r
    | none =>
      if endswith f.name ".json" then
        match f.content with
        | some r => if r.address = a then some r else none
        | none => none
      else none


/-! ## Wallet generation (`create_wallet`, lines 68-84) -/

/-- The external cryptographic collaborators used by `create_wallet`:
`tokenHex32` stands for the result of `secrets.token_hex(32)` (the hex encoding
of 32 bytes of cryptographically secure randomness), `deriveAddress` for
`Account.from_key(pk).address` (the canonical address derivation from a private
key) and `keccakHex` for `web3.keccak(text=s).hex()`. -/
structure CryptoOracles where
  tokenHex32 : String
  deriveAddress : String → String
  keccakHex : String → String

/-- `CryptoWallet.create_wallet`, lines 68-84: draw the private key, derive the
address, build the record with `public_key = keccak(text=address).hex()`, write
it to `wallets/{address}.json` and assign it into `self.accounts`, returning
the record. -/
def create_wallet (o : CryptoOracles) (s : WalletState) : WalletRecord × WalletState :=
  let private_key := o.tokenHex32
  let address := o.deriveAddress private_key
  let wallet_data : WalletRecord :=
    { address := address
      private_key := private_key
      public_key := o.keccakHex address }
  let files := writeFile s.files (address ++ ".json") (some wallet_data)
  let accounts := insertAccount s.accounts address wallet_data
  (wallet_data, ⟨accounts, files⟩)

/-- The file-system states observable if the process crashes during the file
write of `create_wallet` (lines 79-81).  The code opens
`wallets/{address}.json` with mode `'w'`, which truncates the file in place,
and then writes the serialized record directly into it — there is no temporary
file and no rename.  The three states are: before `open`, after `open('w')`
truncated the file but before the serialized record is completely written
(content unparseable), and after the completed write. -/
def create_wallet_crash_states (o : CryptoOracles) (s : WalletState) :
    List (List WalletFile) :=
  let address := o.deriveAddress o.tokenHex32
  let wallet_data : WalletRecord :=
    { address := address
      private_key := o.tokenHex32
      public_key := o.keccakHex address }
  [s.files,
   writeFile s.files (address ++ ".json") none,
   writeFile s.files (address ++ ".json") (some wallet_data)]

/-! ## Network configuration and airdrop (`__init__` lines 31-44, `request_airdrop` lines 86-96) -/

/-- One entry of the `self.networks` dict built in `__init__`. -/
structure NetworkConfig where
  url : String
  explorer : String
  explorer_key : String
  faucet : String
deriving DecidableEq, Repr

/-- The `self.networks` dict of `__init__` (lines 31-44), parameterized by the
two environment variables. -/
def networksConfig (infura_api_key etherscan_api_key : String) :
    List (String × NetworkConfig) :=
  [("sepolia",
    { url := "https://sepolia.infura.io/v3/" ++ infura_api_key
      explorer := "https://api-sepolia.etherscan.io/api"
      explorer_key := etherscan_api_key
      faucet := "https://sepoliafaucet.com/" }),
   ("goerli",
    { url := "https://goerli.infura.io/v3/" ++ infura_api_key
      explorer := "https://api-goerli.etherscan.io/api"
      explorer_key := etherscan_api_key
      faucet := "https://goerlifaucet.com/" })]

/-- Assoc-list view of a Python dict subscription `d[k]`. -/
def lookupConfig : List (String × NetworkConfig) → String → Option NetworkConfig
  | [], _ => none
  | (k, v) :: rest, a => if k = a then some v else lookupConfig rest a

/-- The dict returned by a successful `request_airdrop`. -/
structure AirdropResult where
  status : String
  message : String
  network : String
deriving DecidableEq, Repr

/-- The network calls the embedding records, in the order the Python code
makes them.  `web3.is_address`, `web3.to_wei`, `web3.from_wei`, signing and
hex rendering are local library computations, not network calls. -/
inductive NetOp where
  | getTransactionCount (address : String)
  | gasPrice
  | chainId
  | sendRawTransaction
  | waitForTransactionReceipt
  | explorerGet (address : String)
deriving DecidableEq, Repr

instance {ε α : Type} [DecidableEq ε] [DecidableEq α] : DecidableEq (Except ε α) := fun x y =>
  match x, y with
  | .error a, .error b =>
    if h : a = b then isTrue (by rw [h])
    else isFalse (fun hxy => by cases hxy; exact h rfl)
  | .error _, .ok _ => isFalse (fun hxy => by cases hxy)
  | .ok _, .error _ => isFalse (fun hxy => by cases hxy)
  | .ok a, .ok b =>
    if h : a = b then isTrue (by rw [h])
    else isFalse (fun hxy => by cases hxy; exact h rfl)

/-- The outcome of a state-threading operation: the returned value or raised
exception, the network calls performed, and the wallet store state after the
call. -/
structure Outcome (α : Type) where
  result : Except String α
  netops : List NetOp
  state : WalletState
deriving DecidableEq

/-- `CryptoWallet.request_airdrop`, lines 86-96: raise `ValueError("Invalid
address")` unless `web3.is_address(address)`; otherwise look up the faucet URL
of the configured network and return the success dict.  `is_address` is a
syntactic check performed locally by the web3 library; no network call is
made and the store is not touched. -/
def request_airdrop (is_address : String → Bool)
    (networks : List (String × NetworkConfig)) (network : String)
    (s : WalletState) (address : String) : Outcome AirdropResult :=
  if is_address address = false then
    ⟨.error "Invalid address", [], s⟩
  else
    match lookupConfig networks network with
    | none => ⟨.error ("KeyError: " ++ network), [], s⟩
    | some cfg =>
      ⟨.ok { status := "success"
             message := "Please visit " ++ cfg.faucet ++
               " to request tokens for address: " ++ address
             network := network },
       [], s⟩

/-! ## Transaction submission (`send_transaction`, lines 98-129) -/

/-- The transaction dict built at lines 114-121 (`gas` is the fixed literal
21000). -/
structure EthTransaction where
  nonce : Nat
  toAddr : String
  value : Nat
  gas : Nat
  gasPrice : Nat
  chainId : Nat
deriving DecidableEq, Repr

/-- The `web3` collaborator as used by `send_transaction`.  Fallible
operations return `Except`: an `.error e` models the Python call raising an
exception with message `e`, which `send_transaction` does not catch.  The
amount is an arbitrary type `A` (a Python float) consumed only by `to_wei`;
`signTransaction tx pk` models `web3.eth.account.sign_transaction` and yields
the raw signed payload, `toHex` models `web3.to_hex`. -/
structure Web3Oracle (A : Type) where
  getTransactionCount : String → Except String Nat
  gasPrice : Except String Nat
  chainId : Except String Nat
  toWei : A → Nat
  signTransaction : EthTransaction → String → Except String String
  sendRawTransaction : String → Except String Nat
  waitForTransactionReceipt : Nat → Except String Nat
  toHex : Nat → String
  is_address : String → Bool

/-- `CryptoWallet.send_transaction`, lines 98-129, statement by statement:
check `from_address in self.accounts` (raising `ValueError` otherwise), read
the sender's private key, fetch the nonce and gas price over the network,
convert the amount to wei locally, build the transaction dict (fetching the
chain id over the network), sign locally with `"0x" + private_key`, broadcast,
wait for the receipt, and return `to_hex(tx_hash)`.  `to_address` is never
validated.  Every exit path returns the input state unchanged: the method
never writes to `self.accounts` or to any file. -/
def send_transaction {A : Type} (o : Web3Oracle A) (s : WalletState)
    (from_address to_address : String) (amount : A) : Outcome String :=
  match getAccount s.accounts from_address with
  | none => ⟨.error "Sender address not found in wallet", [], s⟩
  | some acct =>
    let private_key := acct.private_key
    match o.getTransactionCount from_address with
    | .error e => ⟨.error e, [.getTransactionCount from_address], s⟩
    | .ok nonce =>
      match o.gasPrice with
      | .error e => ⟨.error e, [.getTransactionCount from_address, .gasPrice], s⟩
      | .ok gas_price =>
        let value_in_wei := o.toWei amount
        match o.chainId with
        | .error e =>
          ⟨.error e, [.getTransactionCount from_address, .gasPrice, .chainId], s⟩
        | .ok chain_id =>
          let transaction : EthTransaction :=
            { nonce := nonce
              toAddr := to_address
              value := value_in_wei
              gas := 21000
              gasPrice := gas_price
              chainId := chain_id }
          match o.signTransaction transaction ("0x" ++ private_key) with
          | .error e =>
            ⟨.error e, [.getTransactionCount from_address, .gasPrice, .chainId], s⟩
          | .ok signed_txn =>
            match o.sendRawTransaction signed_txn with
            | .error e =>
              ⟨.error e,
               [.getTransactionCount from_address, .gasPrice, .chainId,
                .sendRawTransaction], s⟩
            | .ok tx_hash =>
              match o.waitForTransactionReceipt tx_hash with
              | .error e =>
                ⟨.error e,
                 [.getTransactionCount from_address, .gasPrice, .chainId,
                  .sendRawTransaction, .waitForTransactionReceipt], s⟩
              | .ok _receipt =>
                ⟨.ok (o.toHex tx_hash),
                 [.getTransactionCount from_address, .gasPrice, .chainId,
                  .sendRawTransaction, .waitForTransactionReceipt], s⟩

/-! ## History (`get_transaction_history` lines 131-154, `_format_transactions` lines 156-169) -/

/-- One entry of `data["result"]` from the explorer.  The Python code reads
the string fields directly and applies `int(...)` to `value` and `timeStamp`;
the embedding carries those two as the parsed integers.  `fromAddr`/`toAddr`
stand for the JSON keys `"from"`/`"to"` (reserved words in Lean). -/
structure RawTx where
  hash : String
  fromAddr : String
  toAddr : String
  value : Nat
  gasUsed : String
  timeStamp : Nat
  txreceipt_status : String
deriving DecidableEq, Repr

/-- One formatted entry as built by `_format_transactions`.  `value` holds the
rendering of `web3.from_wei(value, "ether")` and `timestamp` the
`datetime.fromtimestamp(...).strftime(...)` string, both produced by external
collaborators modelled as oracle functions. -/
structure FormattedTx where
  hash : String
  fromAddr : String
  toAddr : String
  value : String
  gas_used : String
  timestamp : String
  status : String
deriving DecidableEq, Repr

/-- `CryptoWallet._format_transactions`, lines 156-169: map each raw entry to
the display dict; `status` is `"Success"` iff `txreceipt_status == "1"`. -/
def format_transactions (from_wei : Nat → String) (fmt_timestamp : Nat → String)
    (transactions : List RawTx) : List FormattedTx :=
  transactions.map fun tx =>
    { hash := tx.hash
      fromAddr := tx.fromAddr
      toAddr := tx.toAddr
      value := from_wei tx.value
      gas_used := tx.gasUsed
      timestamp := fmt_timestamp tx.timeStamp
      status := if tx.txreceipt_status = "1" then "Success" else "Failed" }

/-- The `requests.get` response as `get_transaction_history` consumes it:
the HTTP status code, the `"status"` field of the JSON body, and the
`"result"` list. -/
structure HttpResponse where
  status_code : Nat
  dataStatus : String
  dataResult : List RawTx
deriving DecidableEq, Repr

/-- `CryptoWallet.get_transaction_history`, lines 131-154: raise
`ValueError("Invalid address")` unless `web3.is_address(address)`; otherwise
perform one `requests.get` against the explorer (`http_response` is its
outcome; `.error e` models the request itself raising a network exception,
which the method does not catch).  On a 200 response whose body has
`status == "1"`, return the formatted list; on any other response fall
through to `return []`. -/
def get_transaction_history (is_address : String → Bool)
    (http_response : Except String HttpResponse)
    (from_wei : Nat → String) (fmt_timestamp : Nat → String)
    (address : String) : Except String (List FormattedTx) × List NetOp :=
  if is_address address = false then
    (.error "Invalid address", [])
  else
    match http_response with
    | .error e => (.error e, [.explorerGet address])
    | .ok response =>
      if response.status_code = 200 then
        if response.dataStatus = "1" then
          (.ok (format_transactions from_wei fmt_timestamp response.dataResult),
           [.explorerGet address])
        else (.ok [], [.explorerGet address])
      else (.ok [], [.explorerGet address])

/-! ## Concrete instances used by the witnesses and counterexamples -/

/-- A demonstration syntactic address check: `0x` prefix and total length 42,
the shape of the checksummed addresses handled by the web3 collaborator. -/
def demoIsAddress (a : String) : Bool :=
  a.data.take 2 = ['0', 'x'] && a.data.length = 42

/-- A concrete stored sender record. -/
def demoSender : WalletRecord :=
  { address := "0xaaaaaaaaaaaaaaaaaaaaaaaaaaaaaaaaaaaaaaaa"
    private_key := "11" 
    public_key := "0xpub" }

/-- A second concrete record. -/
def demoRecB : WalletRecord :=
  { address := "0xbbbbbbbbbbbbbbbbbbbbbbbbbbbbbbbbbbbbbbbb"
    private_key := "22"
    public_key := "0xpubB" }

/-- A store holding the sender's record in memory and on disk. -/
def demoState : WalletState :=
  { accounts := [(demoSender.address, demoSender)]
    files := [⟨demoSender.address ++ ".json", some demoSender⟩] }

/-- A web3 collaborator whose network operations all succeed. -/
def demoWeb3 : Web3Oracle Nat :=
  { getTransactionCount := fun _ => .ok 0
    gasPrice := .ok 20
    chainId := .ok 11155111
    toWei := fun n => n * 1000000000000000000
    signTransaction := fun _ _ => .ok "rawsigned"
    sendRawTransaction := fun _ => .ok 7
    waitForTransactionReceipt := fun _ => .ok 1
    toHex := fun _ => "0xdeadbeef"
    is_address := demoIsAddress }

/-- Concrete crypto collaborators for the generation witnesses. -/
def demoCrypto : CryptoOracles :=
  { tokenHex32 := "22"
    deriveAddress := fun pk => "0x" ++ pk ++ "cafe"
    keccakHex := fun a => "keccak:" ++ a }

/-- The `self.networks` dict for concrete environment-variable values. -/
def demoNetworks : List (String × NetworkConfig) := networksConfig "ik" "ek"

/-- The sepolia entry of `demoNetworks`, spelled out. -/
def demoSepoliaConfig : NetworkConfig :=
  { url := "https://sepolia.infura.io/v3/" ++ "ik"
    explorer := "https://api-sepolia.etherscan.io/api"
    explorer_key := "ek"
    faucet := "https://sepoliafaucet.com/" }

/-- A record already on disk for the address that `demoCrypto` derives. -/
def demoOldRecord : WalletRecord :=
  { address := "0x22cafe", private_key := "99", public_key := "oldpub" }

/-- A store whose directory already holds a valid record file for the address
`demoCrypto` will derive again. -/
def demoCrashStore : WalletState :=
  { accounts := [("0x22cafe", demoOldRecord)]
    files := [⟨"0x22cafe.json", some demoOldRecord⟩] }

/-- A directory listing holding one malformed record file and one valid one. -/
def demoDirFiles : List WalletFile :=
  [⟨"bad.json", none⟩, ⟨demoRecB.address ++ ".json", some demoRecB⟩]

/-- Two distinct records carrying the same internal address. -/
def demoDupA : WalletRecord :=
  { address := demoSender.address, private_key := "aa", public_key := "p1" }

/-- See `demoDupA`. -/
def demoDupB : WalletRecord :=
  { address := demoSender.address, private_key := "bb", public_key := "p2" }

/-! ## Supporting lemmas -/

theorem endswith_append (a suffix : String) : endswith (a ++ suffix) suffix = true := by
  unfold endswith
  rw [List.isSuffixOf_iff_suffix, String.data_append]
  exact List.suffix_append a.data suffix.data

theorem getAccount_insertAccount (m : AccountMap) (k a : String) (v : WalletRecord) :
    getAccount (insertAccount m k v) a = if k = a then some v else getAccount m a := by
  induction m with
  | nil => simp [insertAccount, getAccount]
  | cons hd tl ih =>
    obtain ⟨k', v'⟩ := hd
    by_cases hk : k' = k
    · subst hk
      by_cases ha : k' = a
      · subst ha
        simp [insertAccount, getAccount]
      · simp [insertAccount, getAccount, ha]
    · by_cases ha : k' = a
      · subst ha
        have hka : ¬k = k' := fun h => hk h.symm
        simp [insertAccount, getAccount, hk, hka]
      · simp [insertAccount, getAccount, hk, ha, ih]

theorem loadExistingWallets_lookup (files : List WalletFile) (acc : AccountMap) (a : String) :
    getAccount (loadExistingWallets files acc).1 a =
      match lastValidRecord files a with
      | some r => some r
      | none => getAccount acc a := by
  induction files generalizing acc with
  | nil => simp [loadExistingWallets, lastValidRecord]
  | cons f rest ih =>
    by_cases hj : endswith f.name ".json"
    · cases hc : f.content with
      | some r =>
        simp only [loadExistingWallets, hj, if_pos, hc]
        rw [ih]
        cases hlast : lastValidRecord rest a with
        | some r' => simp [lastValidRecord, hlast]
        | none =>
          rw [getAccount_insertAccount]
          by_cases hra : r.address = a
          · simp [lastValidRecord, hlast, hj, hc, hra]
          · simp [lastValidRecord, hlast, hj, hc, hra]
      | none =>
        simp only [loadExistingWallets, hj, if_pos, hc]
        rw [ih]
        cases hlast : lastValidRecord rest a with
        | some r' => simp [lastValidRecord, hlast]
        | none => simp [lastValidRecord, hlast, hj, hc]
    · simp only [loadExistingWallets, hj, if_neg, Bool.false_eq_true, not_false_iff]
      rw [ih]
      cases hlast : lastValidRecord rest a with
      | some r' => simp [lastValidRecord, hlast]
      | none => simp [lastValidRecord, hlast, hj]

theorem loadExistingWallets_warnings (files : List WalletFile) (acc : AccountMap) :
    (loadExistingWallets files acc).2 =
      (files.filter (fun f => endswith f.name ".json" && f.content.isNone)).map
        (fun f => "Error loading wallet " ++ f.name) := by
  induction files generalizing acc with
  | nil => simp [loadExistingWallets]
  | cons f rest ih =>
    by_cases hj : endswith f.name ".json"
    · cases hc : f.content with
      | some r => simp [loadExistingWallets, hj, hc, ih]
      | none => simp [loadExistingWallets, hj, hc, ih]
    · simp [loadExistingWallets, hj, ih]

theorem getAccount_insertAccount_self (m : AccountMap) (k : String) (v : WalletRecord) :
    getAccount (insertAccount m k v) k = some v := by
  simp [getAccount_insertAccount]

theorem readFile_writeFile (fs : List WalletFile) (n : String) (c : Option WalletRecord) :
    readFile (writeFile fs n c) n = some c := by
  induction fs with
  | nil => simp [writeFile, readFile]
  | cons f rest ih =>
    by_cases h : f.name = n
    · simp [writeFile, readFile, h]
    · simp [writeFile, readFile, h, ih]

theorem lastValidRecord_eq_none (fs : List WalletFile) (a : String)
    (h : ∀ f ∈ fs, ∀ r : WalletRecord, f.content = some r → r.address ≠ a) :
    lastValidRecord fs a = none := by
  induction fs with
  | nil => rfl
  | cons f rest ih =>
    have hrest : lastValidRecord rest a = none :=
      ih fun g hg r hr => h g (List.mem_cons_of_mem f hg) r hr
    simp only [lastValidRecord, hrest]
    by_cases hj : endswith f.name ".json"
    · cases hc : f.content with
      | some r => simp [hj, hc, h f (List.mem_cons_self f rest) r hc]
      | none => simp [hj, hc]
    · simp [hj]

theorem lastValidRecord_writeFile (fs : List WalletFile) (a : String) (r : WalletRecord)
    (hra : r.address = a)
    (h : ∀ f ∈ fs, ∀ r' : WalletRecord, f.content = some r' → r'.address ≠ a) :
    lastValidRecord (writeFile fs (a ++ ".json") (some r)) a = some r := by
  induction fs with
  | nil => simp [writeFile, lastValidRecord, endswith_append, hra]
  | cons f rest ih =>
    by_cases hn : f.name = a ++ ".json"
    · have hrest : lastValidRecord rest a = none :=
        lastValidRecord_eq_none rest a fun g hg r' hr' =>
          h g (List.mem_cons_of_mem f hg) r' hr'
      simp [writeFile, hn, lastValidRecord, hrest, endswith_append, hra]
    · have ihrest := ih fun g hg r' hr' => h g (List.mem_cons_of_mem f hg) r' hr'
      simp [writeFile, hn, lastValidRecord, ihrest]

theorem lastValidRecord_isSome_of_mem (fs : List WalletFile) (f : WalletFile)
    (r : WalletRecord) (hf : f ∈ fs) (hj : endswith f.name ".json" = true)
    (hc : f.content = some r) :
    ∃ r' : WalletRecord, lastValidRecord fs r.address = some r' := by
  induction fs with
  | nil => cases hf
  | cons g rest ih =>
    rcases List.mem_cons.1 hf with hg | hg
    · subst hg
      cases hrest : lastValidRecord rest r.address with
      | some r' => exact ⟨r', by simp [lastValidRecord, hrest]⟩
      | none => exact ⟨r, by simp [lastValidRecord, hrest, hj, hc]⟩
    · obtain ⟨r', hr'⟩ := ih hg
      exact ⟨r', by simp [lastValidRecord, hr']⟩

theorem lastValidRecord_sound (fs : List WalletFile) (a : String) (r : WalletRecord)
    (h : lastValidRecord fs a = some r) :
    r.address = a ∧ ∃ f ∈ fs, endswith f.name ".json" = true ∧ f.content = some r := by
  induction fs with
  | nil => cases h
  | cons g rest ih =>
    rw [lastValidRecord] at h
    cases hrest : lastValidRecord rest a with
    | some r' =>
      simp only [hrest, Option.some.injEq] at h
      subst h
      obtain ⟨ha, f, hf, hjf, hcf⟩ := ih hrest
      exact ⟨ha, f, List.mem_cons_of_mem g hf, hjf, hcf⟩
    | none =>
      simp only [hrest] at h
      by_cases hj : endswith g.name ".json"
      · rw [if_pos hj] at h
        cases hc : g.content with
        | some r' =>
          simp only [hc] at h
          by_cases hra : r'.address = a
          · rw [if_pos hra] at h
            injection h with h
            subst h
            exact ⟨hra, g, List.mem_cons_self g rest, hj, hc⟩
          · rw [if_neg hra] at h
            cases h
        | none =>
          simp only [hc] at h
          cases h
      · rw [if_neg hj] at h
        cases h

/-! ## Claim theorems -/

/-- C1: whenever `from_address` has no record in the in-memory mapping,
`send_transaction` fails with the sender-not-found error
(`ValueError("Sender address not found in wallet")`), performs no network
call to the blockchain client, and returns the store (mapping and files)
unchanged. -/
theorem send_transaction_unknown_sender {A : Type} (o : Web3Oracle A) (s : WalletState)
    (from_address to_address : String) (amount : A)
    (h : getAccount s.accounts from_address = none) :
    send_transaction o s from_address to_address amount =
      ⟨.error "Sender address not found in wallet", [], s⟩ := by
  simp only [send_transaction, h]

/-- Witness for `send_transaction_unknown_sender` at a concrete store and
oracle. -/
theorem send_transaction_unknown_sender_witness :
    send_transaction demoWeb3 demoState demoRecB.address demoSender.address 1 =
      ⟨.error "Sender address not found in wallet", [], demoState⟩ :=
  send_transaction_unknown_sender demoWeb3 demoState demoRecB.address demoSender.address 1
    (by decide)

/-- C8 (frame property): `send_transaction` never modifies the Wallet Store —
on every exit path, successful or failing at any collaborator call, the
returned state (in-memory mapping and on-disk files) is exactly the input
state. -/
theorem send_transaction_frame {A : Type} (o : Web3Oracle A) (s : WalletState)
    (from_address to_address : String) (amount : A) :
    (send_transaction o s from_address to_address amount).state = s := by
  unfold send_transaction
  repeat' first
  | rfl
  | split
  | dsimp only

/-- C7: `create_wallet` returns a record whose `private_key` is the output of
`secrets.token_hex(32)` (32 bytes of cryptographically secure randomness, as
supplied by the `secrets` collaborator), whose `address` is the canonical
derivation `Account.from_key(private_key).address`, and whose `public_key` is
`web3.keccak(text=address).hex()`; it persists that record to the file
`wallets/{address}.json` (containing the same three fields) and into the
in-memory mapping under the address. -/
theorem create_wallet_spec (o : CryptoOracles) (s : WalletState) :
    (create_wallet o s).1.private_key = o.tokenHex32 ∧
    (create_wallet o s).1.address = o.deriveAddress (create_wallet o s).1.private_key ∧
    (create_wallet o s).1.public_key = o.keccakHex (create_wallet o s).1.address ∧
    readFile (create_wallet o s).2.files ((create_wallet o s).1.address ++ ".json") =
      some (some (create_wallet o s).1) ∧
    getAccount (create_wallet o s).2.accounts (create_wallet o s).1.address =
      some (create_wallet o s).1 := by
  exact ⟨rfl, rfl, rfl, readFile_writeFile _ _ _,
    getAccount_insertAccount_self s.accounts _ _⟩

/-- C9: `request_airdrop` validates its address argument with the
collaborator's syntactic check: an invalid address raises
`ValueError("Invalid address")`, and a valid one returns the
`status: success` dict whose message embeds the configured faucet URL; in
both cases no network call is performed and the store is unchanged. -/
theorem request_airdrop_validates (is_address : String → Bool)
    (networks : List (String × NetworkConfig)) (network : String)
    (s : WalletState) (address : String) :
    (is_address address = false →
      request_airdrop is_address networks network s address =
        ⟨.error "Invalid address", [], s⟩) ∧
    (∀ cfg : NetworkConfig, is_address address = true →
      lookupConfig networks network = some cfg →
      request_airdrop is_address networks network s address =
        ⟨.ok { status := "success"
               message := "Please visit " ++ cfg.faucet ++
                 " to request tokens for address: " ++ address
               network := network }, [], s⟩) := by
  constructor
  · intro h
    simp [request_airdrop, h]
  · intro cfg h hcfg
    simp [request_airdrop, h, hcfg]

/-- Witness for `request_airdrop_validates`: a concrete invalid and a
concrete valid address against the sepolia configuration. -/
theorem request_airdrop_validates_witness :
    request_airdrop demoIsAddress demoNetworks "sepolia" demoState "0xshort" =
      ⟨.error "Invalid address", [], demoState⟩ ∧
    request_airdrop demoIsAddress demoNetworks "sepolia" demoState demoSender.address =
      ⟨.ok { status := "success"
             message := "Please visit " ++ demoSepoliaConfig.faucet ++
               " to request tokens for address: " ++ demoSender.address
             network := "sepolia" }, [], demoState⟩ :=
  ⟨(request_airdrop_validates demoIsAddress demoNetworks "sepolia" demoState "0xshort").1
     (by decide),
   (request_airdrop_validates demoIsAddress demoNetworks "sepolia" demoState
      demoSender.address).2 demoSepoliaConfig (by decide) (by decide)⟩

/-- C2 counterexample: with the sender stored and a syntactically invalid
`to_address` ("bad": no hex prefix, wrong length — the syntactic check
rejects it), `send_transaction` does not fail with an invalid-address error
and does proceed to collaborator calls: the method never validates
`to_address`. -/
theorem send_transaction_skips_to_address_validation :
    demoIsAddress "bad" = false ∧
    (send_transaction demoWeb3 demoState demoSender.address "bad" 1).netops ≠ [] ∧
    (send_transaction demoWeb3 demoState demoSender.address "bad" 1).result ≠
      .error "Invalid address" := by
  exact ⟨by decide, by decide, by decide⟩

/-- C2 (amended): `get_transaction_history` with a syntactically invalid
address fails with the invalid-address error and performs no collaborator
call; `send_transaction`, however, performs no syntactic validation of its
`to_address` — whenever the sender is stored, its first action is the
`get_transaction_count` network call to the blockchain client, whatever
`to_address` is. -/
theorem invalid_address_validation {A : Type} (o : Web3Oracle A)
    (is_address : String → Bool) (http_response : Except String HttpResponse)
    (from_wei fmt_timestamp : Nat → String) (s : WalletState)
    (address from_address to_address : String) (amount : A) (r : WalletRecord)
    (hbad : is_address address = false)
    (hsender : getAccount s.accounts from_address = some r) :
    get_transaction_history is_address http_response from_wei fmt_timestamp address =
      (.error "Invalid address", []) ∧
    (send_transaction o s from_address to_address amount).netops.head? =
      some (.getTransactionCount from_address) := by
  constructor
  · simp [get_transaction_history, hbad]
  · simp only [send_transaction, hsender]
    repeat' first
    | rfl
    | split

/-- Witness for `invalid_address_validation` at concrete inputs. -/
theorem invalid_address_validation_witness :
    get_transaction_history demoIsAddress (.ok ⟨200, "1", []⟩)
      (fun _ => "0") (fun _ => "t") "bad" = (.error "Invalid address", []) ∧
    (send_transaction demoWeb3 demoState demoSender.address "0xshort" 1).netops.head? =
      some (.getTransactionCount demoSender.address) :=
  invalid_address_validation demoWeb3 demoIsAddress (.ok ⟨200, "1", []⟩)
    (fun _ => "0") (fun _ => "t") demoState "bad" demoSender.address "0xshort" 1
    demoSender (by decide) (by decide)

/-- C3 counterexample: with a valid record file for address `0x22cafe`
already in the directory, the observable state between `open('w')` and the
completed write holds the file `0x22cafe.json` with unparseable content: the
previous valid record did not survive and the complete new record is not
present — a crash there silently replaces a valid record with a truncated
one. -/
theorem create_wallet_write_not_atomic :
    (create_wallet_crash_states demoCrypto demoCrashStore).getD 1 [] =
      [⟨"0x22cafe.json", none⟩] ∧
    readFile ((create_wallet_crash_states demoCrypto demoCrashStore).getD 1 [])
      "0x22cafe.json" = some none ∧
    (none : Option WalletRecord) ≠ some demoOldRecord ∧
    (none : Option WalletRecord) ≠ some (create_wallet demoCrypto demoCrashStore).1 := by
  exact ⟨by decide, by decide, by decide, by decide⟩

/-- C3 (amended): the record-file write inside wallet creation is not atomic:
`create_wallet` opens `wallets/{address}.json` in mode `'w'` — truncating any
existing file of that name in place — then writes the serialized record
directly into it (no temporary file, no rename).  A crash between the
truncation and the completed write leaves that file present but unparseable
(neither the previous record nor the new one); only the completed final state
carries the new record. -/
theorem create_wallet_write_truncates_in_place (o : CryptoOracles) (s : WalletState) :
    (create_wallet_crash_states o s).getD 0 [] = s.files ∧
    readFile ((create_wallet_crash_states o s).getD 1 [])
      (o.deriveAddress o.tokenHex32 ++ ".json") = some none ∧
    (create_wallet_crash_states o s).getD 2 [] = (create_wallet o s).2.files := by
  exact ⟨rfl, readFile_writeFile _ _ _, rfl⟩

/-- C4 counterexample: when the outbound HTTP request itself fails at the
network level (`requests.get` raises), `get_transaction_history` propagates
the exception instead of returning an empty list: the claim that an error is
never raised for external-service failures is false. -/
theorem get_transaction_history_network_failure_raises :
    demoIsAddress demoSender.address = true ∧
    (get_transaction_history demoIsAddress (.error "ConnectionError")
        (fun _ => "0") (fun _ => "t") demoSender.address).1 =
      .error "ConnectionError" := by
  exact ⟨by decide, by decide⟩

/-- C4 (amended): for a syntactically valid address,
`get_transaction_history` returns an empty list (never an error) whenever the
explorer responds with a non-200 HTTP status or a body status other than
`"1"`; a network-level failure of the HTTP request itself, however, is not
caught and propagates as an error. -/
theorem get_transaction_history_external_failures (is_address : String → Bool)
    (from_wei fmt_timestamp : Nat → String) (address : String)
    (h : is_address address = true) :
    (∀ resp : HttpResponse, resp.status_code ≠ 200 ∨ resp.dataStatus ≠ "1" →
      (get_transaction_history is_address (.ok resp) from_wei fmt_timestamp address).1 =
        .ok []) ∧
    (∀ e : String,
      (get_transaction_history is_address (.error e) from_wei fmt_timestamp address).1 =
        .error e) := by
  constructor
  · intro resp hresp
    rcases hresp with hsc | hds
    · simp [get_transaction_history, h, hsc]
    · by_cases hsc : resp.status_code = 200
      · simp [get_transaction_history, h, hsc, hds]
      · simp [get_transaction_history, h, hsc]
  · intro e
    simp [get_transaction_history, h]

/-- Witness for `get_transaction_history_external_failures`: a 500 response
and a network failure, at a concrete valid address. -/
theorem get_transaction_history_external_failures_witness :
    (get_transaction_history demoIsAddress (.ok ⟨500, "1", []⟩)
        (fun _ => "0") (fun _ => "t") demoSender.address).1 = .ok [] ∧
    (get_transaction_history demoIsAddress (.error "timeout")
        (fun _ => "0") (fun _ => "t") demoSender.address).1 = .error "timeout" :=
  ⟨(get_transaction_history_external_failures demoIsAddress (fun _ => "0") (fun _ => "t")
      demoSender.address (by decide)).1 ⟨500, "1", []⟩ (Or.inl (by decide)),
   (get_transaction_history_external_failures demoIsAddress (fun _ => "0") (fun _ => "t")
      demoSender.address (by decide)).2 "timeout"⟩

/-- C5 (round-trip): for every record produced by wallet generation — whose
address is freshly derived, so no pre-existing file in the directory parses
to a record bearing it — writing it to the store and then re-initializing the
store from the same directory yields a mapping entry for that address whose
`address`, `private_key` and `public_key` fields are byte-identical to the
original record's. -/
theorem create_wallet_round_trip (o : CryptoOracles) (s : WalletState)
    (hfresh : ∀ f ∈ s.files, ∀ r : WalletRecord, f.content = some r →
      r.address ≠ o.deriveAddress o.tokenHex32) :
    ∃ stored : WalletRecord,
      getAccount (loadExistingWallets (create_wallet o s).2.files []).1
          (create_wallet o s).1.address = some stored ∧
      stored.address = (create_wallet o s).1.address ∧
      stored.private_key = (create_wallet o s).1.private_key ∧
      stored.public_key = (create_wallet o s).1.public_key := by
  refine ⟨(create_wallet o s).1, ?_, rfl, rfl, rfl⟩
  have hlast : lastValidRecord (create_wallet o s).2.files (create_wallet o s).1.address =
      some (create_wallet o s).1 :=
    lastValidRecord_writeFile s.files (o.deriveAddress o.tokenHex32)
      (create_wallet o s).1 rfl hfresh
  rw [loadExistingWallets_lookup, hlast]

/-- Witness for `create_wallet_round_trip`: generation into an empty store. -/
theorem create_wallet_round_trip_witness :
    ∃ stored : WalletRecord,
      getAccount (loadExistingWallets (create_wallet demoCrypto ⟨[], []⟩).2.files []).1
          (create_wallet demoCrypto ⟨[], []⟩).1.address = some stored ∧
      stored.address = (create_wallet demoCrypto ⟨[], []⟩).1.address ∧
      stored.private_key = (create_wallet demoCrypto ⟨[], []⟩).1.private_key ∧
      stored.public_key = (create_wallet demoCrypto ⟨[], []⟩).1.public_key :=
  create_wallet_round_trip demoCrypto ⟨[], []⟩
    (fun f hf => absurd hf (List.not_mem_nil f))

/-- C6: store initialization over any directory listing never aborts: it
emits exactly one logged warning per `.json`-named file that fails to parse,
loads every valid record (the resulting mapping has an entry under each valid
record's address), and every mapping entry originates from a valid record
file of the directory — the mapping exposes exactly the valid records. -/
theorem load_tolerates_malformed_files (files : List WalletFile) :
    (loadExistingWallets files []).2 =
      (files.filter fun f => endswith f.name ".json" && f.content.isNone).map
        (fun f => "Error loading wallet " ++ f.name) ∧
    (∀ f ∈ files, endswith f.name ".json" = true → ∀ r : WalletRecord,
      f.content = some r →
      ∃ r' : WalletRecord,
        getAccount (loadExistingWallets files []).1 r.address = some r') ∧
    (∀ (a : String) (r : WalletRecord),
      getAccount (loadExistingWallets files []).1 a = some r →
      r.address = a ∧ ∃ f ∈ files, endswith f.name ".json" = true ∧ f.content = some r) := by
  refine ⟨loadExistingWallets_warnings files [], ?_, ?_⟩
  · intro f hf hj r hc
    obtain ⟨r', hr'⟩ := lastValidRecord_isSome_of_mem files f r hf hj hc
    exact ⟨r', by rw [loadExistingWallets_lookup, hr']⟩
  · intro a r h
    rw [loadExistingWallets_lookup] at h
    cases hlast : lastValidRecord files a with
    | some r' =>
      simp only [hlast, Option.some.injEq] at h
      subst h
      exact lastValidRecord_sound files a r' hlast
    | none =>
      simp only [hlast, getAccount] at h
      cases h

/-- Witness for `load_tolerates_malformed_files`: one malformed and one valid
record file. -/
theorem load_tolerates_malformed_files_witness :
    (loadExistingWallets demoDirFiles []).2 = ["Error loading wallet bad.json"] ∧
    (∃ r' : WalletRecord,
      getAccount (loadExistingWallets demoDirFiles []).1 demoRecB.address = some r') :=
  ⟨(load_tolerates_malformed_files demoDirFiles).1.trans (by decide),
   (load_tolerates_malformed_files demoDirFiles).2.1
     ⟨demoRecB.address ++ ".json", some demoRecB⟩ (by decide) (by decide) demoRecB rfl⟩

/-- C10: store initialization considers only files whose name ends in
`.json` — any other file is skipped with no effect on the mapping and no
warning — and keys each loaded record by the internal `address` field of the
file's content: the mapping entry at any address equals the record of the
last `.json`-named parseable file in directory-listing order whose internal
address is that address.  Hence a file whose name disagrees with its internal
`address` field is exposed under the internal address, and of two parseable
files carrying the same internal address the later one in listing order
determines the entry. -/
theorem load_keying_and_listing_order (files : List WalletFile) (f : WalletFile)
    (acc : AccountMap) (a : String) (n1 n2 : String) (r1 r2 : WalletRecord) :
    (endswith f.name ".json" = false →
      loadExistingWallets (f :: files) acc = loadExistingWallets files acc) ∧
    getAccount (loadExistingWallets files []).1 a = lastValidRecord files a ∧
    (endswith n1 ".json" = true → endswith n2 ".json" = true →
      r1.address = r2.address →
      getAccount (loadExistingWallets [⟨n1, some r1⟩, ⟨n2, some r2⟩] []).1 r1.address =
        some r2) := by
  refine ⟨?_, ?_, ?_⟩
  · intro h
    simp [loadExistingWallets, h]
  · rw [loadExistingWallets_lookup]
    cases lastValidRecord files a with
    | some r => rfl
    | none => rfl
  · intro h1 h2 hr
    rw [loadExistingWallets_lookup]
    simp [lastValidRecord, h1, h2, hr]

/-- Witness for `load_keying_and_listing_order`: a non-`.json` file is
ignored, and of two same-address record files the later one wins. -/
theorem load_keying_and_listing_order_witness :
    loadExistingWallets (⟨"readme.txt", none⟩ :: demoDirFiles) [] =
      loadExistingWallets demoDirFiles [] ∧
    getAccount
        (loadExistingWallets [⟨"first.json", some demoDupA⟩,
          ⟨"second.json", some demoDupB⟩] []).1 demoDupA.address =
      some demoDupB :=
  ⟨(load_keying_and_listing_order demoDirFiles ⟨"readme.txt", none⟩ [] ""
      "a" "b" demoDupA demoDupB).1 (by decide),
   (load_keying_and_listing_order demoDirFiles ⟨"readme.txt", none⟩ [] ""
      "first.json" "second.json" demoDupA demoDupB).2.2
     (by decide) (by decide) rfl⟩
